import Mathlib

/-!
Shallow embedding, in Lean 4, of the core of the constellation1-mcp-server
repository (Go): the configuration merge of main.go and config/config.go, the
OAuth2 token cache of auth/oauth.go, the argument translation of
tools/reso_query.go, and the pre-network validation and URL-parameter
construction of api/client.go and api/types.go, together with an
interleaving model of concurrent GetToken callers.  Machine integers are
modelled as unbounded Int (the values involved are far from 64-bit bounds,
and the one place Go semantics bounds them, strconv.Atoi, carries an
explicit range check).  Go float64 values are modelled as rationals: every
float64 is exactly a rational, and the conversion int(v) is truncation
toward zero, which agrees with the rational truncation for all in-range
values.  Wall-clock instants are rationals (seconds).
-/

namespace Reso

/-- A Go interface value as produced by encoding/json or by a direct caller:
the only shapes the embedded code ever type-switches on are strings, ints,
float64s, bools and nil. -/
inductive JValue where
  | str (s : String)
  | int (n : Int)
  | float (q : ℚ)
  | bool (b : Bool)
  | null
  deriving DecidableEq

/-- A Go map from string keys to interface values, as a lookup function
(none = key absent). -/
def Args : Type := String → Option JValue

/-- Truncation of a rational toward zero: the semantics of the Go conversion
int(v) for a float64 value v (in range). -/
def goTrunc (q : ℚ) : Int :=
  if 0 ≤ q then Int.fdiv q.num q.den else -Int.fdiv (-q.num) q.den

/-- Decimal digit test, as in strconv.ParseInt base 10. -/
def goIsDigit (c : Char) : Bool := decide ('0' ≤ c) && decide (c ≤ '9')

/-- Value of a list of decimal digit characters. -/
def digitsVal (cs : List Char) : Nat :=
  cs.foldl (fun a c => a * 10 + (c.toNat - Char.toNat '0')) 0

/-- Model of strconv.Atoi: optional leading sign, then a nonempty run of
decimal digits, with the int64 range check ParseInt performs for bitSize 0;
every other input yields an error (none). -/
def goAtoi (s : String) : Option Int :=
  match s.data with
  | [] => none
  | c :: rest =>
    let signDigits : Bool × List Char :=
      if c = '-' then (true, rest)
      else if c = '+' then (false, rest) else (false, c :: rest)
    let neg := signDigits.1
    let digits := signDigits.2
    if digits.isEmpty then none
    else if digits.all goIsDigit then
      let v : Int := (digitsVal digits : Int)
      let v := if neg then -v else v
      if -(2 ^ 63) ≤ v ∧ v ≤ 2 ^ 63 - 1 then some v else none
    else none

/-- Whitespace as unicode.IsSpace sees it (the Latin-1 range; the exotic
Unicode space code points never occur in the embedded scenarios). -/
def goIsSpace (c : Char) : Bool :=
  c = ' ' || c = '\t' || c = '\n' || c = '\r' ||
  c.toNat = 11 || c.toNat = 12 || c.toNat = 133 || c.toNat = 160

/-- Model of strings.TrimSpace: leading and trailing whitespace removed. -/
def goTrimSpace (s : String) : String :=
  String.mk (((s.data.dropWhile goIsSpace).reverse.dropWhile goIsSpace).reverse)

/-- api/types.go QueryParams: the validated query description.  Go zero
values give the defaults of absent fields; IgnoreNulls is set to true by
parseArguments before any field is read. -/
structure QueryParams where
  Entity : String
  Select : String := ""
  Filter : String := ""
  Top : Int := 0
  Skip : Int := 0
  OrderBy : String := ""
  Expand : String := ""
  IgnoreNulls : Bool := false
  IgnoreCase : Bool := false
  deriving DecidableEq

/-- The names of the nine supported entities, in the order of
api/types.go GetSupportedEntities (descriptions and URLs are presentation
data the embedded logic never reads). -/
def GetSupportedEntitiesNames : List String :=
  ["Property", "Member", "Office", "Media", "OpenHouse",
   "Dom", "PropertyUnitTypes", "PropertyRooms", "RawMlsProperty"]

/-- api/types.go IsValidEntity: linear scan of the supported entity names. -/
def IsValidEntity (entity : String) : Bool :=
  GetSupportedEntitiesNames.contains entity

/-- api/types.go GetEntitySkipLimit: the per-entity pagination ceiling,
50000 when the entity is not in the map. -/
def GetEntitySkipLimit (entity : String) : Int :=
  if entity = "Property" then 1000000
  else if entity = "Office" then 500000
  else if entity = "Media" then 50000
  else if entity = "OpenHouse" then 500000
  else if entity = "PropertyRooms" then 50000
  else if entity = "Dom" then 50000
  else if entity = "Member" then 500000
  else if entity = "RawMlsProperty" then 50000
  else if entity = "PropertyUnitTypes" then 50000
  else 50000

/-- The optional select block of parseArguments: a string value is trimmed
and stored, anything else is ignored. -/
def applySelect (args : Args) (p : QueryParams) : QueryParams :=
  match args "select" with
  | some (JValue.str s) => { p with Select := goTrimSpace s }
  | _ => p

/-- The optional filter block of parseArguments. -/
def applyFilter (args : Args) (p : QueryParams) : QueryParams :=
  match args "filter" with
  | some (JValue.str s) => { p with Filter := goTrimSpace s }
  | _ => p

/-- The optional top block of parseArguments: the type switch accepts a
float64 (every JSON number decoded into an interface map), a Go int, or a
string strconv.Atoi accepts; any other value, and a string Atoi rejects,
leaves the field at its zero default without an error. -/
def applyTop (args : Args) (p : QueryParams) : QueryParams :=
  match args "top" with
  | some (JValue.float q) => { p with Top := goTrunc q }
  | some (JValue.int n) => { p with Top := n }
  | some (JValue.str s) =>
    match goAtoi s with
    | some n => { p with Top := n }
    | none => p
  | _ => p

/-- The optional skip block of parseArguments: same type switch as top. -/
def applySkip (args : Args) (p : QueryParams) : QueryParams :=
  match args "skip" with
  | some (JValue.float q) => { p with Skip := goTrunc q }
  | some (JValue.int n) => { p with Skip := n }
  | some (JValue.str s) =>
    match goAtoi s with
    | some n => { p with Skip := n }
    | none => p
  | _ => p

/-- The optional orderby block of parseArguments. -/
def applyOrderBy (args : Args) (p : QueryParams) : QueryParams :=
  match args "orderby" with
  | some (JValue.str s) => { p with OrderBy := goTrimSpace s }
  | _ => p

/-- The optional expand block of parseArguments. -/
def applyExpand (args : Args) (p : QueryParams) : QueryParams :=
  match args "expand" with
  | some (JValue.str s) => { p with Expand := goTrimSpace s }
  | _ => p

/-- The optional ignorenulls block of parseArguments. -/
def applyIgnoreNulls (args : Args) (p : QueryParams) : QueryParams :=
  match args "ignorenulls" with
  | some (JValue.bool b) => { p with IgnoreNulls := b }
  | _ => p

/-- The optional ignorecase block of parseArguments. -/
def applyIgnoreCase (args : Args) (p : QueryParams) : QueryParams :=
  match args "ignorecase" with
  | some (JValue.bool b) => { p with IgnoreCase := b }
  | _ => p

/-- tools/reso_query.go parseArguments: translate the loosely typed argument
map into QueryParams.  entity must be present as a string (else the one
error exit); the optional blocks then run in source order on a params value
whose IgnoreNulls field was initialized to true. -/
def parseArguments (args : Args) : Except String QueryParams :=
  match args "entity" with
  | some (JValue.str entity) =>
    Except.ok (applyIgnoreCase args (applyIgnoreNulls args (applyExpand args
      (applyOrderBy args (applySkip args (applyTop args (applyFilter args
        (applySelect args { Entity := entity, IgnoreNulls := true }))))))))
  | _ => Except.error "entity is required"

/-- The outgoing URL parameter set built by api/client.go Query
(url.Values with one Set call per non-default field), as an association
list in the order of the Set calls.  Encode only reorders keys, so
membership in this list is membership in the outgoing parameter set. -/
def buildQueryParams (p : QueryParams) : List (String × String) :=
  (if p.Select ≠ "" then [("$select", p.Select)] else []) ++
  (if p.Filter ≠ "" then [("$filter", p.Filter)] else []) ++
  (if 0 < p.Top then [("$top", toString p.Top)] else []) ++
  (if 0 < p.Skip then [("$skip", toString p.Skip)] else []) ++
  (if p.OrderBy ≠ "" then [("$orderby", p.OrderBy)] else []) ++
  (if p.IgnoreNulls then [("$ignorenulls", "true")] else []) ++
  (if p.IgnoreCase then [("$ignorecase", "true")] else [])

/-- Lookup of a key in an association list (url.Values.Get). -/
def listLookup (k : String) : List (String × String) → Option String
  | [] => none
  | kv :: rest => if kv.1 = k then some kv.2 else listLookup k rest

/-- The phase of api/client.go Query that runs before the token fetch and
the HTTP request: entity validation, skip-limit validation, and construction
of the URL parameter set.  An error value is returned by Query before
GetToken or the HTTP client is ever invoked; an ok value carries the
parameter set of the request Query then proceeds to send. -/
def queryPrepare (p : QueryParams) : Except String (List (String × String)) :=
  if ¬ IsValidEntity p.Entity then
    Except.error ("unsupported entity: " ++ p.Entity)
  else if 0 < p.Skip ∧ GetEntitySkipLimit p.Entity < p.Skip then
    Except.error ("skip value " ++ toString p.Skip ++ " exceeds limit " ++
      toString (GetEntitySkipLimit p.Entity) ++ " for entity " ++ p.Entity)
  else
    Except.ok (buildQueryParams p)

/-- config/config.go Config: the four configuration fields. -/
structure Config where
  ClientID : String
  ClientSecret : String
  AuthURL : String
  BaseURL : String
  deriving DecidableEq

/-- config/config.go DefaultConfig. -/
def DefaultConfig : Config :=
  { ClientID := ""
    ClientSecret := ""
    AuthURL := "https://authenticate.constellation1apis.com/oauth2/token"
    BaseURL := "https://listings.cdatalabs.com/odata" }

/-- A settings map restricted to the two keys config.LoadFromMCPSettings
reads (client_id and client_secret); none = key absent from the map.  The
Go map may carry other keys, but nothing in the embedded code observes
them. -/
structure Settings where
  client_id : Option JValue
  client_secret : Option JValue
  deriving DecidableEq

/-- Copying src into dst key by key (the Go for-range merge loops in
handleInitialize): a key present in src overwrites, a key absent in src
leaves dst untouched. -/
def Settings.overrideWith (dst src : Settings) : Settings :=
  { client_id := src.client_id.orElse (fun _ => dst.client_id)
    client_secret := src.client_secret.orElse (fun _ => dst.client_secret) }

/-- config/config.go LoadFromMCPSettings: for each key, the config field is
replaced only when the map holds a non-empty string for it; a nil map is an
error.  Returns the updated config (unchanged on error). -/
def Config.LoadFromMCPSettings (c : Config) (settings : Option Settings) :
    Except String Config :=
  match settings with
  | none => Except.error "no settings provided"
  | some s =>
    let c := match s.client_id with
      | some (JValue.str v) => if v ≠ "" then { c with ClientID := v } else c
      | _ => c
    let c := match s.client_secret with
      | some (JValue.str v) => if v ≠ "" then { c with ClientSecret := v } else c
      | _ => c
    Except.ok c

/-- The process environment, as the lookup function os.Getenv (returns ""
for an unset variable). -/
def Env : Type := String → String

/-- config/config.go LoadFromEnv: each field replaced when the RESO-prefixed
variable is non-empty. -/
def Config.LoadFromEnv (c : Config) (env : Env) : Config :=
  let c := if env "RESO_CLIENT_ID" ≠ "" then { c with ClientID := env "RESO_CLIENT_ID" } else c
  let c := if env "RESO_CLIENT_SECRET" ≠ "" then { c with ClientSecret := env "RESO_CLIENT_SECRET" } else c
  let c := if env "RESO_AUTH_URL" ≠ "" then { c with AuthURL := env "RESO_AUTH_URL" } else c
  let c := if env "RESO_BASE_URL" ≠ "" then { c with BaseURL := env "RESO_BASE_URL" } else c
  c

/-- config/config.go ValidateCredentials: the check a tool call runs before
doing anything else; some msg = the error returned. -/
def Config.ValidateCredentials (c : Config) : Option String :=
  if c.ClientID = "" then
    some "client_id is required - please configure in MCP settings"
  else if c.ClientSecret = "" then
    some "client_secret is required - please configure in MCP settings"
  else none

/-- The envSettings map built at the top of main.go: command-line flags
first, then CLIENT_ID, then RESO_CLIENT_ID, then MCP_RESO_CLIENT_ID, each
consulted only while the key is still unset, and only non-empty values
stored.  flagClientID and flagClientSecret are the flag values ("" when the
flag was not passed). -/
def buildEnvSettings (flagClientID flagClientSecret : String) (env : Env) : Settings :=
  { client_id :=
      if flagClientID ≠ "" then some (JValue.str flagClientID)
      else if env "CLIENT_ID" ≠ "" then some (JValue.str (env "CLIENT_ID"))
      else if env "RESO_CLIENT_ID" ≠ "" then some (JValue.str (env "RESO_CLIENT_ID"))
      else if env "MCP_RESO_CLIENT_ID" ≠ "" then some (JValue.str (env "MCP_RESO_CLIENT_ID"))
      else none
    client_secret :=
      if flagClientSecret ≠ "" then some (JValue.str flagClientSecret)
      else if env "CLIENT_SECRET" ≠ "" then some (JValue.str (env "CLIENT_SECRET"))
      else if env "RESO_CLIENT_SECRET" ≠ "" then some (JValue.str (env "RESO_CLIENT_SECRET"))
      else if env "MCP_RESO_CLIENT_SECRET" ≠ "" then some (JValue.str (env "MCP_RESO_CLIENT_SECRET"))
      else none }

/-- main.go: server.pendingSettings is set only when envSettings is
non-empty (nil otherwise). -/
def pendingSettings (flagClientID flagClientSecret : String) (env : Env) : Option Settings :=
  let s := buildEnvSettings flagClientID flagClientSecret env
  if s.client_id.isSome ∨ s.client_secret.isSome then some s else none

/-- The shapes of an initialize request params object that handleInitialize
inspects: capabilities.settings when that is a JSON object, a top-level
settings object, and the bare top-level client_id and client_secret keys
(copied whatever their JSON type). -/
structure InitObject where
  capsSettings : Option Settings
  paramsSettings : Option Settings
  bareClientID : Option JValue
  bareClientSecret : Option JValue
  deriving DecidableEq

/-- none = msg.Params absent or not a JSON object (every rawParams type
assertion then fails and InitializeParams decodes to its zero value). -/
def InitParams : Type := Option InitObject

/-- The settings map handleInitialize assembles: a copy of pendingSettings,
then the three extraction methods in order, later ones overwriting key by
key; method 3 creates the map whenever params is an object. -/
def handleInitializeSettings (pending : Option Settings) (p : InitParams) :
    Option Settings :=
  match p with
  | none => pending
  | some o =>
    let s : Settings := pending.getD { client_id := none, client_secret := none }
    let s := match o.capsSettings with
      | some cs => s.overrideWith cs
      | none => s
    let s := match o.paramsSettings with
      | some ps => s.overrideWith ps
      | none => s
    let s := { s with client_id := o.bareClientID.orElse (fun _ => s.client_id) }
    let s := { s with client_secret := o.bareClientSecret.orElse (fun _ => s.client_secret) }
    some s

/-- main.go MCPServer.Initialize: apply the settings map to the config,
falling back to LoadFromEnv when LoadFromMCPSettings errors (nil map), then
construct the OAuth client and API client; the function ends in return nil,
so the second component (its error result) is always none. -/
def ServerInitialize (c : Config) (env : Env) (settings : Option Settings) :
    Config × Option String :=
  match c.LoadFromMCPSettings settings with
  | Except.ok c1 => (c1, none)
  | Except.error _ => (c.LoadFromEnv env, none)

/-- Whether handleInitialize answers with the -32603 initialization-failure
error response: it does exactly when Initialize returned a non-nil error. -/
def handleInitializeFails (c : Config) (env : Env) (settings : Option Settings) : Bool :=
  ((ServerInitialize c env settings).2).isSome

/-- The full configuration pipeline for one fresh process: DefaultConfig,
pendingSettings from flags and environment, the settings assembled by
handleInitialize from the initialize request, applied by Initialize.  The
result is the config the OAuth client and query tool are constructed
with. -/
def initializeFlow (flagClientID flagClientSecret : String) (env : Env)
    (p : InitParams) : Config :=
  (ServerInitialize DefaultConfig env
    (handleInitializeSettings (pendingSettings flagClientID flagClientSecret env) p)).1

/-- The phases of tools/reso_query.go Execute that run before any network
activity: the credential check, then argument parsing, then (inside Query)
validation; reachQuery carries what Query computes before its token fetch. -/
inductive ExecPhase where
  | configError (msg : String)
  | parseError (msg : String)
  | reachQuery (p : QueryParams) (r : Except String (List (String × String)))

/-- tools/reso_query.go Execute, up to the point where a network call (token
fetch or query HTTP request) would be issued. -/
def executePhase (c : Config) (args : Args) : ExecPhase :=
  match c.ValidateCredentials with
  | some e => ExecPhase.configError ("Configuration error: " ++ e)
  | none =>
    match parseArguments args with
    | Except.error e => ExecPhase.parseError ("Error parsing arguments: " ++ e)
    | Except.ok p => ExecPhase.reachQuery p (queryPrepare p)

/-- auth/oauth.go TokenResponse. -/
structure TokenResponse where
  AccessToken : String
  ExpiresIn : Int
  TokenType : String
  deriving DecidableEq

/-- The mutable token cache of an OAuthClient: the token pointer (none =
nil) and tokenExpiry, an instant in seconds (time.Time zero value = 0). -/
structure OAuthState where
  token : Option TokenResponse
  tokenExpiry : ℚ
  deriving DecidableEq

/-- The cache starts empty in NewOAuthClient. -/
def initialOAuthState : OAuthState := { token := none, tokenExpiry := 0 }

/-- The outcome of the one HTTP exchange refreshToken may perform, covering
each failure exit of the source in order: request construction, the Do
call, reading the body, a non-200 status, an unparsable body; success
carries the decoded TokenResponse. -/
inductive RefreshOutcome where
  | reqCreateError (e : String)
  | httpError (e : String)
  | readError (e : String)
  | badStatus (code : Int) (body : String)
  | parseError (e : String)
  | success (resp : TokenResponse)
  deriving DecidableEq

/-- The error message each failure exit of refreshToken returns. -/
def refreshErrMsg : RefreshOutcome → String
  | RefreshOutcome.reqCreateError e => "failed to create request: " ++ e
  | RefreshOutcome.httpError e => "failed to make request: " ++ e
  | RefreshOutcome.readError e => "failed to read response: " ++ e
  | RefreshOutcome.badStatus code body =>
      "authentication failed with status " ++ toString code ++ ": " ++ body
  | RefreshOutcome.parseError e => "failed to parse token response: " ++ e
  | RefreshOutcome.success _ => ""

/-- Whether an outcome is one of the five failure exits. -/
def RefreshOutcome.isFailure : RefreshOutcome → Bool
  | RefreshOutcome.success _ => false
  | _ => true

/-- The validity test both GetToken and the double check perform:
token non-nil and now strictly before tokenExpiry. -/
def tokenIsValid (s : OAuthState) (now : ℚ) : Bool :=
  s.token.isSome && decide (now < s.tokenExpiry)

/-- auth/oauth.go refreshToken, with the lock held: double check, then the
exchange; on success the cache is replaced with the new token and an expiry
of now plus ExpiresIn minus the 60-second safety buffer; on failure the
cache is untouched and the error is returned.  Components: the cache after
the call, the returned value, and whether the HTTP exchange was
performed. -/
def refreshToken (s : OAuthState) (now : ℚ) (outcome : RefreshOutcome) :
    OAuthState × Except String String × Bool :=
  match s.token with
  | some tk =>
    if now < s.tokenExpiry then (s, Except.ok tk.AccessToken, false)
    else
      match outcome with
      | RefreshOutcome.success resp =>
        ({ token := some resp,
           tokenExpiry := now + ((resp.ExpiresIn - 60 : Int) : ℚ) },
         Except.ok resp.AccessToken, true)
      | o => (s, Except.error (refreshErrMsg o), true)
  | none =>
    match outcome with
    | RefreshOutcome.success resp =>
      ({ token := some resp,
         tokenExpiry := now + ((resp.ExpiresIn - 60 : Int) : ℚ) },
       Except.ok resp.AccessToken, true)
    | o => (s, Except.error (refreshErrMsg o), true)

/-- auth/oauth.go GetToken: return the cached token when it is valid,
otherwise refresh.  Components as in refreshToken; the Bool records whether
a network exchange happened. -/
def GetTokenRun (s : OAuthState) (now : ℚ) (outcome : RefreshOutcome) :
    OAuthState × Except String String × Bool :=
  match s.token with
  | some tk =>
    if now < s.tokenExpiry then (s, Except.ok tk.AccessToken, false)
    else refreshToken s now outcome
  | none => refreshToken s now outcome

/-- Program counter of one caller executing GetToken when it may have to
refresh: before the RLock, holding the read lock, waiting for the write
lock, holding the write lock before the double check, performing the HTTP
exchange (write lock still held), and finished. -/
inductive PC where
  | start
  | rlocked
  | wwait
  | wlocked
  | exch
  | done
  deriving DecidableEq

/-- Global state of n concurrent GetToken callers sharing one OAuthClient:
the RWMutex (reader count and writer flag), the cached token (some t = a
token valid throughout the scenario; the wall clock is frozen well inside
any expiry, as in the N-concurrent-callers scenario), each callers program
counter and result, and the number of auth HTTP exchanges started. -/
structure CMState (n : Nat) where
  readers : Nat
  writer : Bool
  cache : Option String
  pcs : Fin n → PC
  results : Fin n → Option (Except String String)
  exchanges : Nat

/-- One atomic action of caller i.  Reading the cache and releasing the
read lock are fused into one step (sound: no writer can interleave while
the read lock is held), and likewise the double check; the exchange itself
is a separate step so that two exchanges being in flight at once is
expressible. -/
inductive CMStep (n : Nat) where
  | acquireR (i : Fin n)
  | check (i : Fin n)
  | acquireW (i : Fin n)
  | doubleCheck (i : Fin n)
  | endExch (i : Fin n)

/-- The transition function.  oracle k is the outcome of the k-th auth
exchange (0-based).  none = the action is not enabled (blocked on the lock
or not at that program point). -/
def cmStep (oracle : Nat → Except String String) {n : Nat}
    (s : CMState n) (e : CMStep n) : Option (CMState n) :=
  match e with
  | CMStep.acquireR i =>
    if s.pcs i = PC.start ∧ s.writer = false then
      some { s with readers := s.readers + 1, pcs := Function.update s.pcs i PC.rlocked }
    else none
  | CMStep.check i =>
    if s.pcs i = PC.rlocked then
      match s.cache with
      | some t =>
        some { s with readers := s.readers - 1,
                      pcs := Function.update s.pcs i PC.done,
                      results := Function.update s.results i (some (Except.ok t)) }
      | none =>
        some { s with readers := s.readers - 1, pcs := Function.update s.pcs i PC.wwait }
    else none
  | CMStep.acquireW i =>
    if s.pcs i = PC.wwait ∧ s.writer = false ∧ s.readers = 0 then
      some { s with writer := true, pcs := Function.update s.pcs i PC.wlocked }
    else none
  | CMStep.doubleCheck i =>
    if s.pcs i = PC.wlocked then
      match s.cache with
      | some t =>
        some { s with writer := false,
                      pcs := Function.update s.pcs i PC.done,
                      results := Function.update s.results i (some (Except.ok t)) }
      | none =>
        some { s with pcs := Function.update s.pcs i PC.exch,
                      exchanges := s.exchanges + 1 }
    else none
  | CMStep.endExch i =>
    if s.pcs i = PC.exch then
      match oracle (s.exchanges - 1) with
      | Except.ok t =>
        some { s with writer := false, cache := some t,
                      pcs := Function.update s.pcs i PC.done,
                      results := Function.update s.results i (some (Except.ok t)) }
      | Except.error m =>
        some { s with writer := false,
                      pcs := Function.update s.pcs i PC.done,
                      results := Function.update s.results i (some (Except.error m)) }
    else none

/-- Run a list of actions; the whole run fails if any action is not
enabled, so a some result is a legal interleaving. -/
def cmRun (oracle : Nat → Except String String) {n : Nat}
    (s : CMState n) : List (CMStep n) → Option (CMState n)
  | [] => some s
  | e :: es =>
    match cmStep oracle s e with
    | some s1 => cmRun oracle s1 es
    | none => none

/-- The initial state of the scenario: no valid cached token, lock free,
every caller about to enter GetToken. -/
def cmInit (n : Nat) : CMState n :=
  { readers := 0, writer := false, cache := none,
    pcs := fun _ => PC.start, results := fun _ => none, exchanges := 0 }

/-- A caller is inside the write-lock-protected section of refreshToken. -/
def inRefresh : PC → Prop
  | PC.wlocked => True
  | PC.exch => True
  | _ => False

instance (pc : PC) : Decidable (inRefresh pc) := by
  cases pc <;> simp [inRefresh] <;> infer_instance

/-- The mutex invariant: at most one caller is inside the write-locked
refresh section, and none is when the writer flag is clear. -/
def MutexInv {n : Nat} (s : CMState n) : Prop :=
  (∀ i j, inRefresh (s.pcs i) → inRefresh (s.pcs j) → i = j) ∧
  (s.writer = false → ∀ i, ¬ inRefresh (s.pcs i))

theorem mutexInv_init (n : Nat) : MutexInv (cmInit n) := by
  constructor
  · intro i j hi
    simp [cmInit, inRefresh] at hi
  · intro _ i
    simp [cmInit, inRefresh]

theorem mutexInv_step (oracle : Nat → Except String String) {n : Nat}
    {s s' : CMState n} {e : CMStep n}
    (h : cmStep oracle s e = some s') (hInv : MutexInv s) : MutexInv s' := by
  obtain ⟨hA, hB⟩ := hInv
  cases e with
  | acquireR i =>
    simp only [cmStep] at h
    split at h
    · rename_i hg
      obtain ⟨hpc, hw⟩ := hg
      cases h
      constructor
      · intro a b ha hb
        simp only [Function.update_apply] at ha hb
        split at ha
        · simp [inRefresh] at ha
        · split at hb
          · simp [inRefresh] at hb
          · exact hA a b ha hb
      · intro hw' a
        simp only [Function.update_apply]
        split
        · simp [inRefresh]
        · exact hB hw' a
    · exact absurd h (by simp)
  | check i =>
    simp only [cmStep] at h
    split at h
    · rename_i hpc
      cases hc : s.cache with
      | some t =>
        rw [hc] at h
        cases h
        constructor
        · intro a b ha hb
          simp only [Function.update_apply] at ha hb
          split at ha
          · simp [inRefresh] at ha
          · split at hb
            · simp [inRefresh] at hb
            · exact hA a b ha hb
        · intro hw' a
          simp only [Function.update_apply]
          split
          · simp [inRefresh]
          · exact hB hw' a
      | none =>
        rw [hc] at h
        cases h
        constructor
        · intro a b ha hb
          simp only [Function.update_apply] at ha hb
          split at ha
          · simp [inRefresh] at ha
          · split at hb
            · simp [inRefresh] at hb
            · exact hA a b ha hb
        · intro hw' a
          simp only [Function.update_apply]
          split
          · simp [inRefresh]
          · exact hB hw' a
    · exact absurd h (by simp)
  | acquireW i =>
    simp only [cmStep] at h
    split at h
    · rename_i hg
      obtain ⟨hpc, hw, hr⟩ := hg
      cases h
      have hnone : ∀ a, ¬ inRefresh (s.pcs a) := hB hw
      constructor
      · intro a b ha hb
        simp only [Function.update_apply] at ha hb
        split at ha
        · rename_i hai
          split at hb
          · rename_i hbi
            rw [hai, hbi]
          · exact absurd hb (hnone b)
        · exact absurd ha (hnone a)
      · intro hw'
        simp at hw'
    · exact absurd h (by simp)
  | doubleCheck i =>
    simp only [cmStep] at h
    split at h
    · rename_i hpc
      cases hc : s.cache with
      | some t =>
        rw [hc] at h
        cases h
        constructor
        · intro a b ha hb
          simp only [Function.update_apply] at ha hb
          split at ha
          · simp [inRefresh] at ha
          · split at hb
            · simp [inRefresh] at hb
            · exact hA a b ha hb
        · intro _ a
          simp only [Function.update_apply]
          split
          · simp [inRefresh]
          · intro hra
            rename_i hai
            have hri : inRefresh (s.pcs i) := by rw [hpc]; trivial
            exact hai (hA a i hra hri)
      | none =>
        rw [hc] at h
        cases h
        have hri : inRefresh (s.pcs i) := by rw [hpc]; trivial
        have hwt : s.writer = true := by
          by_contra hwf
          exact hB (Bool.not_eq_true _ ▸ (by simpa using hwf)) i hri
        constructor
        · intro a b ha hb
          simp only [Function.update_apply] at ha hb
          split at ha
          · rename_i hai
            split at hb
            · rename_i hbi
              rw [hai, hbi]
            · exact (hA b i hb hri).trans hai.symm ▸ (hA b i hb hri) ▸ rfl
          · split at hb
            · rename_i hbi
              exact ((hA a i ha hri).trans hbi.symm)
            · exact hA a b ha hb
        · intro hw'
          rw [hwt] at hw'
          simp at hw'
    · exact absurd h (by simp)
  | endExch i =>
    simp only [cmStep] at h
    split at h
    · rename_i hpc
      have hri : inRefresh (s.pcs i) := by rw [hpc]; trivial
      have hkey : ∀ (a : Fin n), a ≠ i → ¬ inRefresh (s.pcs a) := by
        intro a hai hra
        exact hai (hA a i hra hri)
      cases ho : oracle (s.exchanges - 1) with
      | ok t =>
        rw [ho] at h
        cases h
        constructor
        · intro a b ha hb
          simp only [Function.update_apply] at ha hb
          split at ha
          · simp [inRefresh] at ha
          · split at hb
            · simp [inRefresh] at hb
            · exact hA a b ha hb
        · intro _ a
          simp only [Function.update_apply]
          split
          · simp [inRefresh]
          · rename_i hai
            exact hkey a hai
      | error m =>
        rw [ho] at h
        cases h
        constructor
        · intro a b ha hb
          simp only [Function.update_apply] at ha hb
          split at ha
          · simp [inRefresh] at ha
          · split at hb
            · simp [inRefresh] at hb
            · exact hA a b ha hb
        · intro _ a
          simp only [Function.update_apply]
          split
          · simp [inRefresh]
          · rename_i hai
            exact hkey a hai
    · exact absurd h (by simp)

theorem mutexInv_run (oracle : Nat → Except String String) {n : Nat}
    (trace : List (CMStep n)) :
    ∀ s s' : CMState n, cmRun oracle s trace = some s' → MutexInv s → MutexInv s' := by
  induction trace with
  | nil =>
    intro s s' h hInv
    simp only [cmRun] at h
    cases h
    exact hInv
  | cons e es ih =>
    intro s s' h hInv
    simp only [cmRun] at h
    cases hstep : cmStep oracle s e with
    | none => rw [hstep] at h; exact absurd h (by simp)
    | some s1 =>
      rw [hstep] at h
      exact ih s1 s' h (mutexInv_step oracle hstep hInv)

/-- The invariant of the scenario in which every auth exchange succeeds
with token t: the cache only ever holds t, at most one exchange ever
starts, the exchange counter tracks the cache and the in-flight exchange,
every finished caller got t, and nobody finishes before the cache holds
t. -/
def SuccessInv (t : String) {n : Nat} (s : CMState n) : Prop :=
  MutexInv s ∧
  (∀ t', s.cache = some t' → t' = t) ∧
  (s.cache = some t → s.exchanges = 1 ∧ ∀ i, s.pcs i ≠ PC.exch) ∧
  (s.cache = none → (s.exchanges = 0 ∧ ∀ i, s.pcs i ≠ PC.exch) ∨
      (s.exchanges = 1 ∧ ∃ i, s.pcs i = PC.exch)) ∧
  (∀ i, s.pcs i = PC.done → s.results i = some (Except.ok t)) ∧
  ((∃ i, s.pcs i = PC.done) → s.cache = some t)

theorem successInv_init (t : String) (n : Nat) : SuccessInv t (cmInit n) := by
  refine ⟨mutexInv_init n, ?_, ?_, ?_, ?_, ?_⟩
  · intro t' h
    simp [cmInit] at h
  · intro h
    simp [cmInit] at h
  · intro _
    left
    constructor
    · rfl
    · intro i
      simp [cmInit]
  · intro i h
    simp [cmInit] at h
  · intro ⟨i, h⟩
    simp [cmInit] at h

theorem successInv_step (t : String) {n : Nat} {s s' : CMState n} {e : CMStep n}
    (h : cmStep (fun _ => Except.ok t) s e = some s')
    (hInv : SuccessInv t s) : SuccessInv t s' := by
  obtain ⟨hMut, hCacheVal, hSome, hNone, hDone, hFin⟩ := hInv
  have hMut' : MutexInv s' := mutexInv_step _ h hMut
  cases e with
  | acquireR i =>
    simp only [cmStep] at h
    split at h
    · rename_i hg
      cases h
      refine ⟨hMut', hCacheVal, ?_, ?_, ?_, ?_⟩
      · intro hc
        refine ⟨(hSome hc).1, ?_⟩
        intro a
        simp only [Function.update_apply]
        split
        · simp
        · exact (hSome hc).2 a
      · intro hc
        rcases hNone hc with ⟨he, hx⟩ | ⟨he, a, ha⟩
        · left
          refine ⟨he, ?_⟩
          intro a
          simp only [Function.update_apply]
          split
          · simp
          · exact hx a
        · right
          refine ⟨he, a, ?_⟩
          have hai : a ≠ i := by
            intro hEq
            rw [hEq, hg.1] at ha
            exact PC.noConfusion ha
          simp only [Function.update_apply, if_neg hai]
          exact ha
      · intro a ha
        simp only [Function.update_apply] at ha
        split at ha
        · exact PC.noConfusion ha
        · exact hDone a ha
      · intro ⟨a, ha⟩
        simp only [Function.update_apply] at ha
        split at ha
        · exact PC.noConfusion ha
        · exact hFin ⟨a, ha⟩
    · exact absurd h (by simp)
  | check i =>
    simp only [cmStep] at h
    split at h
    · rename_i hpc
      cases hc : s.cache with
      | some tc =>
        rw [hc] at h
        cases h
        have htc : tc = t := hCacheVal tc hc
        have hct : s.cache = some t := by rw [hc, htc]
        refine ⟨hMut', ?_, ?_, ?_, ?_, ?_⟩
        · intro t' ht'
          have h1 : tc = t' := Option.some.inj ht'
          rw [← h1]
          exact htc
        · intro _
          refine ⟨(hSome hct).1, ?_⟩
          intro a
          simp only [Function.update_apply]
          split
          · simp
          · exact (hSome hct).2 a
        · intro hcc
          exact Option.noConfusion hcc
        · intro a ha
          simp only [Function.update_apply] at ha ⊢
          by_cases hai : a = i
          · rw [if_pos hai, htc]
          · rw [if_neg hai] at ha ⊢
            exact hDone a ha
        · intro _
          rw [htc]
      | none =>
        rw [hc] at h
        cases h
        refine ⟨hMut', ?_, ?_, ?_, ?_, ?_⟩
        · intro t' ht'
          exact Option.noConfusion ht'
        · intro hcc
          exact Option.noConfusion hcc
        · intro _
          rcases hNone hc with ⟨he, hx⟩ | ⟨he, a, ha⟩
          · left
            refine ⟨he, ?_⟩
            intro a
            simp only [Function.update_apply]
            split
            · simp
            · exact hx a
          · right
            refine ⟨he, a, ?_⟩
            have hai : a ≠ i := by
              intro hEq
              rw [hEq, hpc] at ha
              exact PC.noConfusion ha
            simp only [Function.update_apply, if_neg hai]
            exact ha
        · intro a ha
          simp only [Function.update_apply] at ha
          split at ha
          · exact PC.noConfusion ha
          · exact hDone a ha
        · intro ⟨a, ha⟩
          simp only [Function.update_apply] at ha
          split at ha
          · exact PC.noConfusion ha
          · have h6 := hFin ⟨a, ha⟩
            rw [hc] at h6
            exact Option.noConfusion h6
    · exact absurd h (by simp)
  | acquireW i =>
    simp only [cmStep] at h
    split at h
    · rename_i hg
      cases h
      refine ⟨hMut', hCacheVal, ?_, ?_, ?_, ?_⟩
      · intro hc
        refine ⟨(hSome hc).1, ?_⟩
        intro a
        simp only [Function.update_apply]
        split
        · simp
        · exact (hSome hc).2 a
      · intro hc
        rcases hNone hc with ⟨he, hx⟩ | ⟨he, a, ha⟩
        · left
          refine ⟨he, ?_⟩
          intro a
          simp only [Function.update_apply]
          split
          · simp
          · exact hx a
        · right
          refine ⟨he, a, ?_⟩
          have hai : a ≠ i := by
            intro hEq
            rw [hEq, hg.1] at ha
            exact PC.noConfusion ha
          simp only [Function.update_apply, if_neg hai]
          exact ha
      · intro a ha
        simp only [Function.update_apply] at ha
        split at ha
        · exact PC.noConfusion ha
        · exact hDone a ha
      · intro ⟨a, ha⟩
        simp only [Function.update_apply] at ha
        split at ha
        · exact PC.noConfusion ha
        · exact hFin ⟨a, ha⟩
    · exact absurd h (by simp)
  | doubleCheck i =>
    simp only [cmStep] at h
    split at h
    · rename_i hpc
      cases hc : s.cache with
      | some tc =>
        rw [hc] at h
        cases h
        have htc : tc = t := hCacheVal tc hc
        have hct : s.cache = some t := by rw [hc, htc]
        refine ⟨hMut', ?_, ?_, ?_, ?_, ?_⟩
        · intro t' ht'
          have h1 : tc = t' := Option.some.inj ht'
          rw [← h1]
          exact htc
        · intro _
          refine ⟨(hSome hct).1, ?_⟩
          intro a
          simp only [Function.update_apply]
          split
          · simp
          · exact (hSome hct).2 a
        · intro hcc
          exact Option.noConfusion hcc
        · intro a ha
          simp only [Function.update_apply] at ha ⊢
          by_cases hai : a = i
          · rw [if_pos hai, htc]
          · rw [if_neg hai] at ha ⊢
            exact hDone a ha
        · intro _
          rw [htc]
      | none =>
        rw [hc] at h
        cases h
        have hnoexch : ∀ a, s.pcs a ≠ PC.exch := by
          intro a ha
          have hri : inRefresh (s.pcs i) := by rw [hpc]; trivial
          have hra : inRefresh (s.pcs a) := by rw [ha]; trivial
          have := hMut.1 a i hra hri
          rw [this, hpc] at ha
          exact PC.noConfusion ha
        have hzero : s.exchanges = 0 := by
          rcases hNone hc with ⟨he, _⟩ | ⟨_, a, ha⟩
          · exact he
          · exact absurd ha (hnoexch a)
        refine ⟨hMut', ?_, ?_, ?_, ?_, ?_⟩
        · intro t' ht'
          exact Option.noConfusion ht'
        · intro hcc
          exact Option.noConfusion hcc
        · intro _
          right
          refine ⟨by rw [hzero], i, ?_⟩
          exact Function.update_same i PC.exch s.pcs
        · intro a ha
          simp only [Function.update_apply] at ha
          split at ha
          · exact PC.noConfusion ha
          · exact hDone a ha
        · intro ⟨a, ha⟩
          simp only [Function.update_apply] at ha
          split at ha
          · exact PC.noConfusion ha
          · exact absurd hc (by rw [hFin ⟨a, ha⟩]; simp)
    · exact absurd h (by simp)
  | endExch i =>
    simp only [cmStep] at h
    split at h
    · rename_i hpc
      cases h
      have hcpre : s.cache = none := by
        cases hc : s.cache with
        | none => rfl
        | some tc =>
          have htc : tc = t := hCacheVal tc hc
          rw [htc] at hc
          exact absurd hpc ((hSome hc).2 i)
      have hone : s.exchanges = 1 := by
        rcases hNone hcpre with ⟨_, hx⟩ | ⟨he, _⟩
        · exact absurd hpc (hx i)
        · exact he
      have hnoother : ∀ a, a ≠ i → s.pcs a ≠ PC.exch := by
        intro a hai ha
        have hri : inRefresh (s.pcs i) := by rw [hpc]; trivial
        have hra : inRefresh (s.pcs a) := by rw [ha]; trivial
        exact hai (hMut.1 a i hra hri)
      refine ⟨hMut', ?_, ?_, ?_, ?_, ?_⟩
      · intro t' ht'
        exact (Option.some.inj ht').symm
      · intro _
        refine ⟨hone, ?_⟩
        intro a
        simp only [Function.update_apply]
        split
        · simp
        · rename_i hai
          exact hnoother a hai
      · intro hcc
        exact Option.noConfusion hcc
      · intro a ha
        simp only [Function.update_apply] at ha ⊢
        by_cases hai : a = i
        · rw [if_pos hai]
        · rw [if_neg hai] at ha ⊢
          exact hDone a ha
      · intro _
        rfl
    · exact absurd h (by simp)

theorem successInv_run (t : String) {n : Nat} (trace : List (CMStep n)) :
    ∀ s s' : CMState n, cmRun (fun _ => Except.ok t) s trace = some s' →
      SuccessInv t s → SuccessInv t s' := by
  induction trace with
  | nil =>
    intro s s' h hInv
    simp only [cmRun] at h
    cases h
    exact hInv
  | cons e es ih =>
    intro s s' h hInv
    simp only [cmRun] at h
    cases hstep : cmStep (fun _ => Except.ok t) s e with
    | none => rw [hstep] at h; exact absurd h (by simp)
    | some s1 =>
      rw [hstep] at h
      exact ih s1 s' h (successInv_step t hstep hInv)

theorem listLookup_append (k : String) (l1 l2 : List (String × String)) :
    listLookup k (l1 ++ l2) = (listLookup k l1).orElse (fun _ => listLookup k l2) := by
  induction l1 with
  | nil => simp [listLookup]
  | cons kv rest ih =>
    simp only [List.cons_append, listLookup]
    split
    · simp
    · exact ih

theorem lookup_build_select (p : QueryParams) :
    listLookup "$select" (buildQueryParams p) =
      if p.Select ≠ "" then some p.Select else none := by
  unfold buildQueryParams
  simp only [listLookup_append]
  split_ifs <;> simp_all [listLookup]

theorem lookup_build_filter (p : QueryParams) :
    listLookup "$filter" (buildQueryParams p) =
      if p.Filter ≠ "" then some p.Filter else none := by
  unfold buildQueryParams
  simp only [listLookup_append]
  split_ifs <;> simp_all [listLookup]

theorem lookup_build_top (p : QueryParams) :
    listLookup "$top" (buildQueryParams p) =
      if 0 < p.Top then some (toString p.Top) else none := by
  unfold buildQueryParams
  simp only [listLookup_append]
  split_ifs <;> simp_all [listLookup]

theorem lookup_build_skip (p : QueryParams) :
    listLookup "$skip" (buildQueryParams p) =
      if 0 < p.Skip then some (toString p.Skip) else none := by
  unfold buildQueryParams
  simp only [listLookup_append]
  split_ifs <;> simp_all [listLookup]

theorem lookup_build_orderby (p : QueryParams) :
    listLookup "$orderby" (buildQueryParams p) =
      if p.OrderBy ≠ "" then some p.OrderBy else none := by
  unfold buildQueryParams
  simp only [listLookup_append]
  split_ifs <;> simp_all [listLookup]

theorem lookup_build_ignorenulls (p : QueryParams) :
    listLookup "$ignorenulls" (buildQueryParams p) =
      if p.IgnoreNulls then some "true" else none := by
  unfold buildQueryParams
  simp only [listLookup_append]
  split_ifs <;> simp_all [listLookup]

theorem lookup_build_ignorecase (p : QueryParams) :
    listLookup "$ignorecase" (buildQueryParams p) =
      if p.IgnoreCase then some "true" else none := by
  unfold buildQueryParams
  simp only [listLookup_append]
  split_ifs <;> simp_all [listLookup]

theorem lookup_build_expand (p : QueryParams) :
    listLookup "$expand" (buildQueryParams p) = none := by
  unfold buildQueryParams
  simp only [listLookup_append]
  split_ifs <;> simp_all [listLookup]

theorem build_keys (p : QueryParams) :
    ∀ kv ∈ buildQueryParams p,
      kv.1 ∈ ["$select", "$filter", "$top", "$skip", "$orderby",
              "$ignorenulls", "$ignorecase"] := by
  unfold buildQueryParams
  split_ifs <;> intro kv hkv <;> simp at hkv <;>
    first
      | (rcases hkv with h | h | h | h | h | h | h <;> simp [h])
      | (rcases hkv with h | h | h | h | h | h <;> simp [h])
      | (rcases hkv with h | h | h | h | h <;> simp [h])
      | (rcases hkv with h | h | h | h <;> simp [h])
      | (rcases hkv with h | h | h <;> simp [h])
      | (rcases hkv with h | h <;> simp [h])
      | simp [hkv]

theorem queryPrepare_ok_eq (p : QueryParams) (qs : List (String × String))
    (h : queryPrepare p = Except.ok qs) : qs = buildQueryParams p := by
  unfold queryPrepare at h
  split at h
  · exact absurd h (by simp)
  · split at h
    · exact absurd h (by simp)
    · exact (Except.ok.inj h).symm

theorem applySelect_Top (args : Args) (p : QueryParams) :
    (applySelect args p).Top = p.Top := by
  unfold applySelect
  split <;> rfl

theorem applyFilter_Top (args : Args) (p : QueryParams) :
    (applyFilter args p).Top = p.Top := by
  unfold applyFilter
  split <;> rfl

theorem applySkip_Top (args : Args) (p : QueryParams) :
    (applySkip args p).Top = p.Top := by
  unfold applySkip
  split <;> first | rfl | (split <;> rfl)

theorem applyOrderBy_Top (args : Args) (p : QueryParams) :
    (applyOrderBy args p).Top = p.Top := by
  unfold applyOrderBy
  split <;> rfl

theorem applyExpand_Top (args : Args) (p : QueryParams) :
    (applyExpand args p).Top = p.Top := by
  unfold applyExpand
  split <;> rfl

theorem applyIgnoreNulls_Top (args : Args) (p : QueryParams) :
    (applyIgnoreNulls args p).Top = p.Top := by
  unfold applyIgnoreNulls
  split <;> rfl

theorem applyIgnoreCase_Top (args : Args) (p : QueryParams) :
    (applyIgnoreCase args p).Top = p.Top := by
  unfold applyIgnoreCase
  split <;> rfl

theorem applySelect_Skip (args : Args) (p : QueryParams) :
    (applySelect args p).Skip = p.Skip := by
  unfold applySelect
  split <;> rfl

theorem applyFilter_Skip (args : Args) (p : QueryParams) :
    (applyFilter args p).Skip = p.Skip := by
  unfold applyFilter
  split <;> rfl

theorem applyTop_Skip (args : Args) (p : QueryParams) :
    (applyTop args p).Skip = p.Skip := by
  unfold applyTop
  split <;> first | rfl | (split <;> rfl)

theorem applyOrderBy_Skip (args : Args) (p : QueryParams) :
    (applyOrderBy args p).Skip = p.Skip := by
  unfold applyOrderBy
  split <;> rfl

theorem applyExpand_Skip (args : Args) (p : QueryParams) :
    (applyExpand args p).Skip = p.Skip := by
  unfold applyExpand
  split <;> rfl

theorem applyIgnoreNulls_Skip (args : Args) (p : QueryParams) :
    (applyIgnoreNulls args p).Skip = p.Skip := by
  unfold applyIgnoreNulls
  split <;> rfl

theorem applyIgnoreCase_Skip (args : Args) (p : QueryParams) :
    (applyIgnoreCase args p).Skip = p.Skip := by
  unfold applyIgnoreCase
  split <;> rfl

theorem applySelect_Expand (args : Args) (p : QueryParams) :
    (applySelect args p).Expand = p.Expand := by
  unfold applySelect
  split <;> rfl

theorem applyFilter_Expand (args : Args) (p : QueryParams) :
    (applyFilter args p).Expand = p.Expand := by
  unfold applyFilter
  split <;> rfl

theorem applyTop_Expand (args : Args) (p : QueryParams) :
    (applyTop args p).Expand = p.Expand := by
  unfold applyTop
  split <;> first | rfl | (split <;> rfl)

theorem applySkip_Expand (args : Args) (p : QueryParams) :
    (applySkip args p).Expand = p.Expand := by
  unfold applySkip
  split <;> first | rfl | (split <;> rfl)

theorem applyOrderBy_Expand (args : Args) (p : QueryParams) :
    (applyOrderBy args p).Expand = p.Expand := by
  unfold applyOrderBy
  split <;> rfl

theorem applyIgnoreNulls_Expand (args : Args) (p : QueryParams) :
    (applyIgnoreNulls args p).Expand = p.Expand := by
  unfold applyIgnoreNulls
  split <;> rfl

theorem applyIgnoreCase_Expand (args : Args) (p : QueryParams) :
    (applyIgnoreCase args p).Expand = p.Expand := by
  unfold applyIgnoreCase
  split <;> rfl

theorem parseArguments_ok_chain (args : Args) (q : QueryParams)
    (h : parseArguments args = Except.ok q) :
    ∃ e, args "entity" = some (JValue.str e) ∧
      q = applyIgnoreCase args (applyIgnoreNulls args (applyExpand args
        (applyOrderBy args (applySkip args (applyTop args (applyFilter args
          (applySelect args { Entity := e, IgnoreNulls := true }))))))) := by
  unfold parseArguments at h
  split at h
  · rename_i e heq
    exact ⟨e, heq, (Except.ok.inj h).symm⟩
  · exact absurd h (by simp)

theorem parse_Top (args : Args) (q : QueryParams)
    (h : parseArguments args = Except.ok q) :
    q.Top = (match args "top" with
      | some (JValue.float x) => goTrunc x
      | some (JValue.int n) => n
      | some (JValue.str s) => (goAtoi s).getD 0
      | _ => 0) := by
  obtain ⟨e, _, hq⟩ := parseArguments_ok_chain args q h
  subst hq
  rw [applyIgnoreCase_Top, applyIgnoreNulls_Top, applyExpand_Top, applyOrderBy_Top,
      applySkip_Top]
  have hX : (applyFilter args (applySelect args
      { Entity := e, IgnoreNulls := true })).Top = 0 := by
    rw [applyFilter_Top, applySelect_Top]
  cases hv : args "top" with
  | none => simp [applyTop, hv, hX]
  | some jv =>
    cases jv with
    | float x => simp [applyTop, hv]
    | int n => simp [applyTop, hv]
    | str s =>
      cases hA : goAtoi s with
      | some n => simp [applyTop, hv, hA]
      | none => simp [applyTop, hv, hA, hX]
    | bool b => simp [applyTop, hv, hX]
    | null => simp [applyTop, hv, hX]

theorem parse_Skip (args : Args) (q : QueryParams)
    (h : parseArguments args = Except.ok q) :
    q.Skip = (match args "skip" with
      | some (JValue.float x) => goTrunc x
      | some (JValue.int n) => n
      | some (JValue.str s) => (goAtoi s).getD 0
      | _ => 0) := by
  obtain ⟨e, _, hq⟩ := parseArguments_ok_chain args q h
  subst hq
  rw [applyIgnoreCase_Skip, applyIgnoreNulls_Skip, applyExpand_Skip, applyOrderBy_Skip]
  have hX : (applyTop args (applyFilter args (applySelect args
      { Entity := e, IgnoreNulls := true }))).Skip = 0 := by
    rw [applyTop_Skip, applyFilter_Skip, applySelect_Skip]
  cases hv : args "skip" with
  | none => simp [applySkip, hv, hX]
  | some jv =>
    cases jv with
    | float x => simp [applySkip, hv]
    | int n => simp [applySkip, hv]
    | str s =>
      cases hA : goAtoi s with
      | some n => simp [applySkip, hv, hA]
      | none => simp [applySkip, hv, hA, hX]
    | bool b => simp [applySkip, hv, hX]
    | null => simp [applySkip, hv, hX]

theorem parse_Expand (args : Args) (q : QueryParams)
    (h : parseArguments args = Except.ok q) :
    q.Expand = (match args "expand" with
      | some (JValue.str s) => goTrimSpace s
      | _ => "") := by
  obtain ⟨e, _, hq⟩ := parseArguments_ok_chain args q h
  subst hq
  rw [applyIgnoreCase_Expand, applyIgnoreNulls_Expand]
  have hX : (applyOrderBy args (applySkip args (applyTop args (applyFilter args
      (applySelect args { Entity := e, IgnoreNulls := true }))))).Expand = "" := by
    rw [applyOrderBy_Expand, applySkip_Expand, applyTop_Expand, applyFilter_Expand,
        applySelect_Expand]
  cases hv : args "expand" with
  | none => simp [applyExpand, hv, hX]
  | some jv =>
    cases jv with
    | float x => simp [applyExpand, hv, hX]
    | int n => simp [applyExpand, hv, hX]
    | str s => simp [applyExpand, hv]
    | bool b => simp [applyExpand, hv, hX]
    | null => simp [applyExpand, hv, hX]

/-- The integer a loosely typed top or skip value coerces to in
parseArguments: a float64 is truncated toward zero, an int is taken as is,
a string goes through Atoi with silent fallback to 0, and every other
shape is ignored, leaving the zero default. -/
def goNumericCoercion (v : Option JValue) : Int :=
  match v with
  | some (JValue.float x) => goTrunc x
  | some (JValue.int n) => n
  | some (JValue.str s) => (goAtoi s).getD 0
  | _ => 0

theorem goTrunc_intCast (n : Int) : goTrunc ((n : ℚ)) = n := by
  unfold goTrunc
  rw [Rat.num_intCast, Rat.den_intCast]
  split
  · simp [Int.fdiv_one]
  · simp [Int.fdiv_one]

/-- C5: a query with an entity outside the nine-name catalog, or with a
positive skip above the entity-specific limit, is rejected by Query with a
validation error naming the offending value before the token fetch and the
HTTP call (queryPrepare is exactly the phase of Query that precedes both);
a request at or under the limit proceeds to the network with its parameter
set. -/
theorem C5_validation_before_network (p : QueryParams) :
    (IsValidEntity p.Entity = false →
      queryPrepare p = Except.error ("unsupported entity: " ++ p.Entity)) ∧
    (IsValidEntity p.Entity = true → 0 < p.Skip →
      GetEntitySkipLimit p.Entity < p.Skip →
      queryPrepare p = Except.error ("skip value " ++ toString p.Skip ++
        " exceeds limit " ++ toString (GetEntitySkipLimit p.Entity) ++
        " for entity " ++ p.Entity)) ∧
    (IsValidEntity p.Entity = true → p.Skip ≤ GetEntitySkipLimit p.Entity →
      queryPrepare p = Except.ok (buildQueryParams p)) := by
  refine ⟨?_, ?_, ?_⟩
  · intro h
    unfold queryPrepare
    rw [if_pos (by simp [h])]
  · intro hv hs hl
    unfold queryPrepare
    rw [if_neg (by simp [hv]), if_pos ⟨hs, hl⟩]
  · intro hv hle
    have hnot : ¬ (0 < p.Skip ∧ GetEntitySkipLimit p.Entity < p.Skip) := by
      rintro ⟨_, h2⟩
      exact absurd hle (not_le.mpr h2)
    unfold queryPrepare
    rw [if_neg (by simp [hv]), if_neg hnot]

theorem C5_validation_before_network_witness :
    queryPrepare { Entity := "Media", Skip := 600000 } =
      Except.error "skip value 600000 exceeds limit 50000 for entity Media" ∧
    queryPrepare { Entity := "Media", Skip := 40000 } =
      Except.ok (buildQueryParams { Entity := "Media", Skip := 40000 }) ∧
    queryPrepare { Entity := "Foo" } = Except.error "unsupported entity: Foo" := by
  refine ⟨?_, ?_, ?_⟩
  · have h := (C5_validation_before_network { Entity := "Media", Skip := 600000 }).2.1
      (by decide) (by decide) (by decide)
    rw [h]
    exact congrArg Except.error (by decide)
  · exact (C5_validation_before_network { Entity := "Media", Skip := 40000 }).2.2
      (by decide) (by decide)
  · have h := (C5_validation_before_network { Entity := "Foo" }).1 (by decide)
    rw [h]
    exact congrArg Except.error (by decide)

/-- C7: in the parameter set Query sends, each field appears exactly when
it is non-empty (strings) respectively positive (numerics, whose omitted
default is 0); in particular an omitted skip argument leaves Skip at 0 and
produces no skip parameter at all. -/
theorem C7_nonempty_params_only (p : QueryParams) (qs : List (String × String))
    (h : queryPrepare p = Except.ok qs) :
    listLookup "$select" qs = (if p.Select ≠ "" then some p.Select else none) ∧
    listLookup "$filter" qs = (if p.Filter ≠ "" then some p.Filter else none) ∧
    listLookup "$top" qs = (if 0 < p.Top then some (toString p.Top) else none) ∧
    listLookup "$skip" qs = (if 0 < p.Skip then some (toString p.Skip) else none) ∧
    listLookup "$orderby" qs = (if p.OrderBy ≠ "" then some p.OrderBy else none) ∧
    (p.Skip = 0 → listLookup "$skip" qs = none) ∧
    (∀ (args : Args) (q : QueryParams), parseArguments args = Except.ok q →
      args "skip" = none → q.Skip = 0) := by
  have hqs := queryPrepare_ok_eq p qs h
  subst hqs
  refine ⟨lookup_build_select p, lookup_build_filter p, lookup_build_top p,
    lookup_build_skip p, lookup_build_orderby p, ?_, ?_⟩
  · intro h0
    rw [lookup_build_skip p, h0]
    simp
  · intro args q hq hnone
    rw [parse_Skip args q hq, hnone]

theorem C7_nonempty_params_only_witness :
    listLookup "$skip"
      (buildQueryParams { Entity := "Property", Top := 10, IgnoreNulls := true }) = none ∧
    listLookup "$top"
      (buildQueryParams { Entity := "Property", Top := 10, IgnoreNulls := true }) = some "10" ∧
    listLookup "$select"
      (buildQueryParams { Entity := "Property", Top := 10, IgnoreNulls := true }) = none := by
  have h := C7_nonempty_params_only { Entity := "Property", Top := 10, IgnoreNulls := true }
    (buildQueryParams { Entity := "Property", Top := 10, IgnoreNulls := true }) (by rfl)
  refine ⟨h.2.2.2.2.2.1 (by decide), ?_, ?_⟩
  · rw [h.2.2.1]
    decide
  · rw [h.1]
    decide

/-- C10: a non-empty expand argument is trimmed and stored in the
QueryParams by the translator, but the parameter set Query builds contains
only the seven dollar-prefixed keys and never an expand parameter, so the
stored expand value is dropped before the HTTP request. -/
theorem C10_expand_never_sent :
    (∀ (args : Args) (q : QueryParams) (s : String),
      parseArguments args = Except.ok q → args "expand" = some (JValue.str s) →
      q.Expand = goTrimSpace s) ∧
    (∀ (p : QueryParams) (qs : List (String × String)),
      queryPrepare p = Except.ok qs →
      listLookup "$expand" qs = none ∧
      ∀ kv ∈ qs, kv.1 ∈ ["$select", "$filter", "$top", "$skip", "$orderby",
                          "$ignorenulls", "$ignorecase"]) := by
  constructor
  · intro args q s hq hs
    rw [parse_Expand args q hq, hs]
  · intro p qs h
    have hqs := queryPrepare_ok_eq p qs h
    subst hqs
    exact ⟨lookup_build_expand p, build_keys p⟩

theorem C10_expand_never_sent_witness :
    QueryParams.Expand { Entity := "Property", Expand := "Media", IgnoreNulls := true } =
      "Media" ∧
    listLookup "$expand" (buildQueryParams
      { Entity := "Property", Expand := "Media", IgnoreNulls := true }) = none := by
  constructor
  · have h := C10_expand_never_sent.1 (fun k =>
        if k = "entity" then some (JValue.str "Property")
        else if k = "expand" then some (JValue.str " Media ") else none)
      { Entity := "Property", Expand := "Media", IgnoreNulls := true } " Media "
      (by rfl) (by rfl)
    rw [h]
    decide
  · exact (C10_expand_never_sent.2
      { Entity := "Property", Expand := "Media", IgnoreNulls := true } _ rfl).1

/-- C8: for an argument map whose entity is a string, parsing always
succeeds, and the top and skip fields are the Go coercion of whatever
arrived: an int stays itself, an integral float64 is the same integer, a
string is what Atoi accepts, and a non-numeric value or rejected string
silently leaves the zero default without an error. -/
theorem C8_numeric_coercion (args : Args) (e : String)
    (hent : args "entity" = some (JValue.str e)) :
    ∃ q, parseArguments args = Except.ok q ∧
      q.Top = goNumericCoercion (args "top") ∧
      q.Skip = goNumericCoercion (args "skip") ∧
      (∀ n : Int, goNumericCoercion (some (JValue.int n)) = n) ∧
      (∀ n : Int, goNumericCoercion (some (JValue.float (n : ℚ))) = n) ∧
      (∀ s n, goAtoi s = some n → goNumericCoercion (some (JValue.str s)) = n) ∧
      (∀ s, goAtoi s = none → goNumericCoercion (some (JValue.str s)) = 0) ∧
      (∀ b, goNumericCoercion (some (JValue.bool b)) = 0) ∧
      goNumericCoercion (some JValue.null) = 0 ∧
      goNumericCoercion none = 0 := by
  have hok : parseArguments args = Except.ok (applyIgnoreCase args
      (applyIgnoreNulls args (applyExpand args (applyOrderBy args (applySkip args
        (applyTop args (applyFilter args (applySelect args
          { Entity := e, IgnoreNulls := true })))))))) := by
    unfold parseArguments
    rw [hent]
  refine ⟨_, hok, ?_, ?_, ?_, ?_, ?_, ?_, ?_, ?_, ?_⟩
  · rw [parse_Top args _ hok]
    unfold goNumericCoercion
    cases hv : args "top" with
    | none => rfl
    | some jv => cases jv <;> rfl
  · rw [parse_Skip args _ hok]
    unfold goNumericCoercion
    cases hv : args "skip" with
    | none => rfl
    | some jv => cases jv <;> rfl
  · intro n
    rfl
  · intro n
    unfold goNumericCoercion
    exact goTrunc_intCast n
  · intro s n hA
    simp [goNumericCoercion, hA]
  · intro s hA
    simp [goNumericCoercion, hA]
  · intro b
    rfl
  · rfl
  · rfl

theorem C8_numeric_coercion_witness :
    ∃ q, parseArguments (fun k =>
        if k = "entity" then some (JValue.str "Media")
        else if k = "top" then some (JValue.str "42")
        else if k = "skip" then some (JValue.float ((7 : Int) : ℚ))
        else none) = Except.ok q ∧ q.Top = 42 ∧ q.Skip = 7 := by
  obtain ⟨q, h1, h2, h3, _, h5, h6, _⟩ := C8_numeric_coercion (fun k =>
      if k = "entity" then some (JValue.str "Media")
      else if k = "top" then some (JValue.str "42")
      else if k = "skip" then some (JValue.float ((7 : Int) : ℚ))
      else none) "Media" rfl
  refine ⟨q, h1, ?_, ?_⟩
  · rw [h2]
    have := h6 "42" 42 (by decide)
    exact this
  · rw [h3]
    exact h5 7

/-- C6, corrected: when top is omitted the translator leaves Top at 0 (not
10) and the outgoing query carries no top parameter at all; a supplied top,
however far outside [1,1000], is stored and forwarded unchanged, with no
rejection anywhere on the path. -/
theorem C6_top_default_amended (args : Args) (q : QueryParams)
    (h : parseArguments args = Except.ok q) :
    (args "top" = none → q.Top = 0 ∧
      ∀ qs, queryPrepare q = Except.ok qs → listLookup "$top" qs = none) ∧
    (∀ n : Int, args "top" = some (JValue.int n) → q.Top = n) ∧
    (∀ qs, queryPrepare q = Except.ok qs →
      listLookup "$top" qs = (if 0 < q.Top then some (toString q.Top) else none)) := by
  refine ⟨?_, ?_, ?_⟩
  · intro hnone
    have h0 : q.Top = 0 := by
      rw [parse_Top args q h, hnone]
    refine ⟨h0, ?_⟩
    intro qs hqs
    have := queryPrepare_ok_eq q qs hqs
    subst this
    rw [lookup_build_top q, h0]
    simp
  · intro n hn
    rw [parse_Top args q h, hn]
  · intro qs hqs
    have := queryPrepare_ok_eq q qs hqs
    subst this
    exact lookup_build_top q

theorem C6_top_default_counterexample :
    (∃ q, parseArguments (fun k =>
        if k = "entity" then some (JValue.str "Property") else none) = Except.ok q ∧
      q.Top = 0 ∧ q.Top ≠ 10 ∧
      queryPrepare q = Except.ok (buildQueryParams q) ∧
      listLookup "$top" (buildQueryParams q) = none) ∧
    (∃ q, parseArguments (fun k =>
        if k = "entity" then some (JValue.str "Property")
        else if k = "top" then some (JValue.int 5000) else none) = Except.ok q ∧
      q.Top = 5000 ∧
      ∃ qs, queryPrepare q = Except.ok qs ∧ listLookup "$top" qs = some "5000") := by
  constructor
  · refine ⟨_, rfl, by decide, by decide, by rfl, by decide⟩
  · refine ⟨_, rfl, by decide, _, rfl, by decide⟩

theorem C6_top_default_amended_witness :
    ∃ q, parseArguments (fun k =>
        if k = "entity" then some (JValue.str "Office") else none) = Except.ok q ∧
      q.Top = 0 := by
  refine ⟨_, rfl, ?_⟩
  have h := (C6_top_default_amended (fun k =>
      if k = "entity" then some (JValue.str "Office") else none) _ rfl).1 rfl
  exact h.1

theorem refreshToken_fail_state (s : OAuthState) (now : ℚ) (o : RefreshOutcome)
    (hf : o.isFailure = true) : (refreshToken s now o).1 = s := by
  unfold refreshToken
  cases hm : s.token with
  | none =>
    cases o with
    | success resp => simp [RefreshOutcome.isFailure] at hf
    | reqCreateError e => rfl
    | httpError e => rfl
    | readError e => rfl
    | badStatus c b => rfl
    | parseError e => rfl
  | some tk =>
    dsimp only
    split
    · rfl
    · cases o with
      | success resp => simp [RefreshOutcome.isFailure] at hf
      | reqCreateError e => rfl
      | httpError e => rfl
      | readError e => rfl
      | badStatus c b => rfl
      | parseError e => rfl

/-- C3: a token stored by a successful refresh at time T0 with
expires_in 3600 has its cached expiry at T0 + 3540 (the 60-second buffer is
subtracted at store time); GetToken strictly before that instant returns the
cached token with no network exchange, and strictly after it performs a
refresh exchange. -/
theorem C3_token_buffer_window (T0 : ℚ) (resp : TokenResponse) (o : RefreshOutcome)
    (t : ℚ) (hexp : resp.ExpiresIn = 3600) :
    (t < T0 + 3540 →
      GetTokenRun (refreshToken initialOAuthState T0 (RefreshOutcome.success resp)).1 t o =
        ((refreshToken initialOAuthState T0 (RefreshOutcome.success resp)).1,
          Except.ok resp.AccessToken, false)) ∧
    (T0 + 3540 < t →
      (GetTokenRun (refreshToken initialOAuthState T0 (RefreshOutcome.success resp)).1
          t o).2.2 = true) := by
  have hnum : ((resp.ExpiresIn - 60 : Int) : ℚ) = 3540 := by
    rw [hexp]
    norm_num
  have hst : (refreshToken initialOAuthState T0 (RefreshOutcome.success resp)).1 =
      { token := some resp, tokenExpiry := T0 + 3540 } := by
    show ({ token := some resp,
            tokenExpiry := T0 + ((resp.ExpiresIn - 60 : Int) : ℚ) } : OAuthState) = _
    rw [hnum]
  rw [hst]
  constructor
  · intro ht
    unfold GetTokenRun
    simp only
    rw [if_pos ht]
  · intro ht
    have hnlt : ¬ (t < T0 + 3540) := not_lt.mpr (le_of_lt ht)
    unfold GetTokenRun refreshToken
    simp only
    rw [if_neg hnlt, if_neg hnlt]
    cases o <;> rfl

theorem C3_token_buffer_window_witness :
    GetTokenRun (refreshToken initialOAuthState 0
        (RefreshOutcome.success { AccessToken := "tok", ExpiresIn := 3600, TokenType := "bearer" })).1
      3539 (RefreshOutcome.badStatus 500 "boom") =
      ((refreshToken initialOAuthState 0
        (RefreshOutcome.success { AccessToken := "tok", ExpiresIn := 3600, TokenType := "bearer" })).1,
        Except.ok "tok", false) ∧
    (GetTokenRun (refreshToken initialOAuthState 0
        (RefreshOutcome.success { AccessToken := "tok", ExpiresIn := 3600, TokenType := "bearer" })).1
      3541 (RefreshOutcome.badStatus 500 "boom")).2.2 = true := by
  constructor
  · exact (C3_token_buffer_window 0
      { AccessToken := "tok", ExpiresIn := 3600, TokenType := "bearer" }
      (RefreshOutcome.badStatus 500 "boom") 3539 rfl).1 (by norm_num)
  · exact (C3_token_buffer_window 0
      { AccessToken := "tok", ExpiresIn := 3600, TokenType := "bearer" }
      (RefreshOutcome.badStatus 500 "boom") 3541 rfl).2 (by norm_num)

/-- C4: a failed exchange leaves the token cache exactly as it was (the
cache is assigned only on the success path), and when the cached token is
not valid, a failing GetToken surfaces the classified error while keeping
the old cache; the cache changes only when the outcome was a successful
exchange. -/
theorem C4_failure_preserves_cache (s : OAuthState) (now : ℚ) (o : RefreshOutcome) :
    (o.isFailure = true → (refreshToken s now o).1 = s) ∧
    (o.isFailure = true → tokenIsValid s now = false →
      GetTokenRun s now o = (s, Except.error (refreshErrMsg o), true)) ∧
    ((refreshToken s now o).1 ≠ s → ∃ resp, o = RefreshOutcome.success resp) := by
  refine ⟨fun hf => refreshToken_fail_state s now o hf, ?_, ?_⟩
  · intro hf hv
    unfold GetTokenRun refreshToken
    cases hm : s.token with
    | none =>
      cases o with
      | success resp => simp [RefreshOutcome.isFailure] at hf
      | reqCreateError e => rfl
      | httpError e => rfl
      | readError e => rfl
      | badStatus c b => rfl
      | parseError e => rfl
    | some tk =>
      have hnlt : ¬ (now < s.tokenExpiry) := by
        unfold tokenIsValid at hv
        rw [hm] at hv
        simpa using hv
      dsimp only
      rw [if_neg hnlt, if_neg hnlt]
      cases o with
      | success resp => simp [RefreshOutcome.isFailure] at hf
      | reqCreateError e => rfl
      | httpError e => rfl
      | readError e => rfl
      | badStatus c b => rfl
      | parseError e => rfl
  · intro hne
    cases o with
    | success resp => exact ⟨resp, rfl⟩
    | reqCreateError e =>
      exact absurd (refreshToken_fail_state s now (RefreshOutcome.reqCreateError e) rfl) hne
    | httpError e =>
      exact absurd (refreshToken_fail_state s now (RefreshOutcome.httpError e) rfl) hne
    | readError e =>
      exact absurd (refreshToken_fail_state s now (RefreshOutcome.readError e) rfl) hne
    | badStatus c b =>
      exact absurd (refreshToken_fail_state s now (RefreshOutcome.badStatus c b) rfl) hne
    | parseError e =>
      exact absurd (refreshToken_fail_state s now (RefreshOutcome.parseError e) rfl) hne

theorem C4_failure_preserves_cache_witness :
    (refreshToken
        { token := some { AccessToken := "old", ExpiresIn := 3600, TokenType := "b" },
          tokenExpiry := 10 } 50 (RefreshOutcome.httpError "boom")).1 =
      { token := some { AccessToken := "old", ExpiresIn := 3600, TokenType := "b" },
        tokenExpiry := 10 } ∧
    GetTokenRun
        { token := some { AccessToken := "old", ExpiresIn := 3600, TokenType := "b" },
          tokenExpiry := 10 } 50 (RefreshOutcome.httpError "boom") =
      ({ token := some { AccessToken := "old", ExpiresIn := 3600, TokenType := "b" },
         tokenExpiry := 10 }, Except.error "failed to make request: boom", true) := by
  constructor
  · exact (C4_failure_preserves_cache
      { token := some { AccessToken := "old", ExpiresIn := 3600, TokenType := "b" },
        tokenExpiry := 10 } 50 (RefreshOutcome.httpError "boom")).1 rfl
  · exact (C4_failure_preserves_cache
      { token := some { AccessToken := "old", ExpiresIn := 3600, TokenType := "b" },
        tokenExpiry := 10 } 50 (RefreshOutcome.httpError "boom")).2.1 rfl (by decide)

/-- C9: Initialize ends in return nil on every input, so handleInitialize
never answers with the -32603 initialization-failure error, whatever the
settings and whatever credentials are or are not present; a missing
credential surfaces only in Execute, as the tool-level configuration error
produced by the ValidateCredentials check that runs before argument parsing
and before any query or token activity. -/
theorem C9_init_succeeds_credentials_deferred :
    (∀ (c : Config) (env : Env) (settings : Option Settings),
      handleInitializeFails c env settings = false) ∧
    (∀ (c : Config) (args : Args) (e : String), c.ValidateCredentials = some e →
      executePhase c args = ExecPhase.configError ("Configuration error: " ++ e)) ∧
    (∀ (c : Config) (args : Args), c.ClientID = "" →
      executePhase c args = ExecPhase.configError
        "Configuration error: client_id is required - please configure in MCP settings") := by
  refine ⟨?_, ?_, ?_⟩
  · intro c env settings
    unfold handleInitializeFails ServerInitialize
    split <;> rfl
  · intro c args e h
    unfold executePhase
    rw [h]
  · intro c args h
    unfold executePhase Config.ValidateCredentials
    rw [if_pos h]
    rfl

theorem C9_init_succeeds_credentials_deferred_witness :
    handleInitializeFails DefaultConfig (fun _ => "") none = false ∧
    executePhase DefaultConfig (fun _ => some (JValue.str "Property")) =
      ExecPhase.configError
        "Configuration error: client_id is required - please configure in MCP settings" := by
  constructor
  · exact C9_init_succeeds_credentials_deferred.1 DefaultConfig (fun _ => "") none
  · exact C9_init_succeeds_credentials_deferred.2.2 DefaultConfig
      (fun _ => some (JValue.str "Property")) rfl

/-- C2, corrected: in every legal interleaving of n concurrent GetToken
callers the write-locked refresh section is mutually exclusive, so two auth
exchanges are never in flight at once, for any exchange outcomes; and when
the exchange succeeds, every interleaving in which all callers finish
performs exactly one auth exchange and hands every caller that same token.
(When exchanges fail, callers retry one after another, so the exchange
count can reach n; see the counterexample.) -/
theorem C2_single_flight_amended (n : Nat) (t : String) :
    (∀ (oracle : Nat → Except String String) (trace : List (CMStep n)) (s : CMState n),
      cmRun oracle (cmInit n) trace = some s →
      ∀ i j : Fin n, inRefresh (s.pcs i) → inRefresh (s.pcs j) → i = j) ∧
    (∀ (trace : List (CMStep n)) (s : CMState n),
      cmRun (fun _ => Except.ok t) (cmInit n) trace = some s →
      (∀ i, s.pcs i = PC.done) → 0 < n →
      s.exchanges = 1 ∧ ∀ i, s.results i = some (Except.ok t)) := by
  constructor
  · intro oracle trace s h i j hi hj
    exact (mutexInv_run oracle trace (cmInit n) s h (mutexInv_init n)).1 i j hi hj
  · intro trace s h hdone hn
    have hInv := successInv_run t trace (cmInit n) s h (successInv_init t n)
    obtain ⟨_, _, hSome, _, hDone, hFin⟩ := hInv
    have hcache : s.cache = some t := hFin ⟨⟨0, hn⟩, hdone ⟨0, hn⟩⟩
    exact ⟨(hSome hcache).1, fun i => hDone i (hdone i)⟩

theorem C2_single_flight_amended_witness :
    Option.map (fun s => s.exchanges)
      (cmRun (fun _ => Except.ok "tok") (cmInit 1)
        [CMStep.acquireR 0, CMStep.check 0, CMStep.acquireW 0,
         CMStep.doubleCheck 0, CMStep.endExch 0]) = some 1 ∧
    Option.map (fun s => s.results 0)
      (cmRun (fun _ => Except.ok "tok") (cmInit 1)
        [CMStep.acquireR 0, CMStep.check 0, CMStep.acquireW 0,
         CMStep.doubleCheck 0, CMStep.endExch 0]) =
      some (some (Except.ok "tok")) := by
  obtain ⟨s, hE⟩ : ∃ s, cmRun (fun _ => Except.ok "tok") (cmInit 1)
      [CMStep.acquireR 0, CMStep.check 0, CMStep.acquireW 0,
       CMStep.doubleCheck 0, CMStep.endExch 0] = some s := ⟨_, rfl⟩
  have hdone : ∀ i, s.pcs i = PC.done := by
    intro i
    fin_cases i
    have hs : s = ((cmRun (fun _ => Except.ok "tok") (cmInit 1)
        [CMStep.acquireR 0, CMStep.check 0, CMStep.acquireW 0,
         CMStep.doubleCheck 0, CMStep.endExch 0]).getD (cmInit 1)) := by
      rw [hE]
      rfl
    rw [hs]
    rfl
  have h := (C2_single_flight_amended 1 "tok").2 _ s hE hdone Nat.one_pos
  rw [hE]
  exact ⟨congrArg some h.1, congrArg some (h.2 0)⟩

theorem C2_single_flight_counterexample :
    Option.map (fun s => (s.exchanges, s.results 0, s.results 1))
      (cmRun (fun k => Except.error ("auth attempt " ++ toString k ++ " failed"))
        (cmInit 2)
        [CMStep.acquireR 0, CMStep.check 0, CMStep.acquireR 1, CMStep.check 1,
         CMStep.acquireW 0, CMStep.doubleCheck 0, CMStep.endExch 0,
         CMStep.acquireW 1, CMStep.doubleCheck 1, CMStep.endExch 1]) =
      some (2, some (Except.error "auth attempt 0 failed"),
               some (Except.error "auth attempt 1 failed")) ∧
    (2 : Nat) ≠ 1 ∧
    (Except.error "auth attempt 0 failed" : Except String String) ≠
      Except.error "auth attempt 1 failed" := by
  refine ⟨?_, by decide, ?_⟩
  · rfl
  · intro h
    exact absurd (Except.error.inj h) (by decide)

/-- The string carried by a settings value when it is one (the shape
config.LoadFromMCPSettings accepts). -/
def strOfJValue : Option JValue → Option String
  | some (JValue.str s) => some s
  | _ => none

/-- The client_id value the three extraction methods of handleInitialize
resolve from an initialize request: bare top-level key first, then the
top-level settings object, then capabilities.settings (each later method
overwrites the earlier ones, so the first in this list wins). -/
def initParamsClientID (p : InitParams) : Option JValue :=
  match p with
  | none => none
  | some o => o.bareClientID.orElse (fun _ =>
      (o.paramsSettings.bind Settings.client_id).orElse (fun _ =>
        o.capsSettings.bind Settings.client_id))

/-- The client_secret value resolved from an initialize request, as
initParamsClientID. -/
def initParamsClientSecret (p : InitParams) : Option JValue :=
  match p with
  | none => none
  | some o => o.bareClientSecret.orElse (fun _ =>
      (o.paramsSettings.bind Settings.client_secret).orElse (fun _ =>
        o.capsSettings.bind Settings.client_secret))

theorem handleInit_client_id (pending : Option Settings) (p : InitParams) :
    (handleInitializeSettings pending p).bind Settings.client_id =
      (initParamsClientID p).orElse (fun _ => pending.bind Settings.client_id) := by
  cases p with
  | none => cases pending <;> rfl
  | some o =>
    rcases o with ⟨cs, ps, bid, bsec⟩
    unfold handleInitializeSettings initParamsClientID
    dsimp only
    rcases bid with _ | bv <;>
      rcases cs with _ | ⟨csid, cssec⟩ <;>
      rcases ps with _ | ⟨psid, pssec⟩ <;>
      rcases pending with _ | ⟨pid, psec⟩ <;>
      simp [Settings.overrideWith, Option.bind] <;>
      rcases psid with _ | pv <;>
      rcases csid with _ | cv <;>
      simp [Option.orElse]

theorem handleInit_client_secret (pending : Option Settings) (p : InitParams) :
    (handleInitializeSettings pending p).bind Settings.client_secret =
      (initParamsClientSecret p).orElse (fun _ => pending.bind Settings.client_secret) := by
  cases p with
  | none => cases pending <;> rfl
  | some o =>
    rcases o with ⟨cs, ps, bid, bsec⟩
    unfold handleInitializeSettings initParamsClientSecret
    dsimp only
    rcases bsec with _ | bv <;>
      rcases cs with _ | ⟨csid, cssec⟩ <;>
      rcases ps with _ | ⟨psid, pssec⟩ <;>
      rcases pending with _ | ⟨pid, psec⟩ <;>
      simp [Settings.overrideWith, Option.bind] <;>
      rcases pssec with _ | pv <;>
      rcases cssec with _ | cv <;>
      simp [Option.orElse]

/-- How LoadFromMCPSettings resolves one credential field: a non-empty
string value replaces the current field, anything else keeps it. -/
def credFromSetting (fallback : String) : Option JValue → String
  | some (JValue.str v) => if v ≠ "" then v else fallback
  | _ => fallback

theorem ServerInitialize_some_ClientID (c : Config) (env : Env) (s : Settings) :
    ((ServerInitialize c env (some s)).1).ClientID =
      credFromSetting c.ClientID s.client_id := by
  rcases s with ⟨cid, csec⟩
  unfold ServerInitialize Config.LoadFromMCPSettings
  dsimp only
  rcases cid with _ | jv <;> rcases csec with _ | jv2 <;>
    (try cases jv) <;> (try cases jv2) <;> (try dsimp only) <;>
    (first | rfl | (simp only [credFromSetting]; split_ifs <;> rfl))

theorem ServerInitialize_some_ClientSecret (c : Config) (env : Env) (s : Settings) :
    ((ServerInitialize c env (some s)).1).ClientSecret =
      credFromSetting c.ClientSecret s.client_secret := by
  rcases s with ⟨cid, csec⟩
  unfold ServerInitialize Config.LoadFromMCPSettings
  dsimp only
  rcases cid with _ | jv <;> rcases csec with _ | jv2 <;>
    (try cases jv) <;> (try cases jv2) <;> (try dsimp only) <;>
    (first | rfl | (simp only [credFromSetting]; split_ifs <;> rfl))

theorem LoadFromEnv_ClientID (c : Config) (env : Env) :
    (c.LoadFromEnv env).ClientID =
      (if env "RESO_CLIENT_ID" ≠ "" then env "RESO_CLIENT_ID" else c.ClientID) := by
  unfold Config.LoadFromEnv
  split_ifs <;> rfl

theorem LoadFromEnv_ClientSecret (c : Config) (env : Env) :
    (c.LoadFromEnv env).ClientSecret =
      (if env "RESO_CLIENT_SECRET" ≠ "" then env "RESO_CLIENT_SECRET"
       else c.ClientSecret) := by
  unfold Config.LoadFromEnv
  split_ifs <;> rfl

/-- The merged value claim C1 predicts for one credential key, written from
the words of the claim for comparison with the code: ascending precedence
generic environment variable, then domain-prefixed environment variable,
then command line, then initialize-request parameters, with absent keys
never erasing lower values. -/
def claimedMergedValue (genericEnv domainEnv cmdLine : String)
    (initVal : Option String) : String :=
  match initVal with
  | some v => v
  | none =>
    if cmdLine ≠ "" then cmdLine
    else if domainEnv ≠ "" then domainEnv
    else if genericEnv ≠ "" then genericEnv
    else ""

/-- The merged value the code actually computes for one credential key:
initialize params beat the command line, which beats the generic variable,
which beats the domain-prefixed variable, which beats the MCP-prefixed
variable (main.go consults CLIENT_ID before RESO_CLIENT_ID and keeps the
first non-empty value). -/
def amendedMergedValue (mcpEnv domainEnv genericEnv cmdLine : String)
    (initVal : Option String) : String :=
  match initVal with
  | some v => v
  | none =>
    if cmdLine ≠ "" then cmdLine
    else if genericEnv ≠ "" then genericEnv
    else if domainEnv ≠ "" then domainEnv
    else if mcpEnv ≠ "" then mcpEnv
    else ""

theorem credFromSetting_chain (flag g d m : String) :
    credFromSetting ""
      (if flag ≠ "" then some (JValue.str flag)
       else if g ≠ "" then some (JValue.str g)
       else if d ≠ "" then some (JValue.str d)
       else if m ≠ "" then some (JValue.str m)
       else none) =
    (if flag ≠ "" then flag else if g ≠ "" then g else if d ≠ "" then d
     else if m ≠ "" then m else "") := by
  by_cases hf : flag ≠ ""
  · simp [credFromSetting, hf]
  · by_cases hg : g ≠ ""
    · simp [credFromSetting, hf, hg]
    · by_cases hd : d ≠ ""
      · simp [credFromSetting, hf, hg, hd]
      · by_cases hm : m ≠ ""
        · simp [credFromSetting, hf, hg, hd, hm]
        · simp [credFromSetting, hf, hg, hd, hm]

theorem pendingSettings_pos (flagID flagSec : String) (env : Env)
    (hc : (buildEnvSettings flagID flagSec env).client_id.isSome = true ∨
      (buildEnvSettings flagID flagSec env).client_secret.isSome = true) :
    pendingSettings flagID flagSec env = some (buildEnvSettings flagID flagSec env) := by
  unfold pendingSettings
  dsimp only
  rw [if_pos hc]

theorem pendingSettings_neg (flagID flagSec : String) (env : Env)
    (hc : ¬ ((buildEnvSettings flagID flagSec env).client_id.isSome = true ∨
      (buildEnvSettings flagID flagSec env).client_secret.isSome = true)) :
    pendingSettings flagID flagSec env = none := by
  unfold pendingSettings
  dsimp only
  rw [if_neg hc]

theorem pendbind_chain_id (flagID flagSec : String) (env : Env) :
    credFromSetting ""
        ((pendingSettings flagID flagSec env).bind Settings.client_id) =
      (if flagID ≠ "" then flagID
       else if env "CLIENT_ID" ≠ "" then env "CLIENT_ID"
       else if env "RESO_CLIENT_ID" ≠ "" then env "RESO_CLIENT_ID"
       else if env "MCP_RESO_CLIENT_ID" ≠ "" then env "MCP_RESO_CLIENT_ID"
       else "") := by
  by_cases hc : ((buildEnvSettings flagID flagSec env).client_id.isSome = true ∨
      (buildEnvSettings flagID flagSec env).client_secret.isSome = true)
  · rw [pendingSettings_pos flagID flagSec env hc]
    show credFromSetting "" ((buildEnvSettings flagID flagSec env).client_id) = _
    unfold buildEnvSettings
    dsimp only
    exact credFromSetting_chain flagID (env "CLIENT_ID") (env "RESO_CLIENT_ID")
      (env "MCP_RESO_CLIENT_ID")
  · rw [pendingSettings_neg flagID flagSec env hc]
    obtain ⟨hA, _⟩ := not_or.mp hc
    have h1 : (buildEnvSettings flagID flagSec env).client_id = none :=
      Option.not_isSome_iff_eq_none.mp hA
    unfold buildEnvSettings at h1
    dsimp only at h1
    split_ifs at h1 with hf hg hd hm
    simp [credFromSetting, hf, hg, hd, hm]

theorem pendbind_chain_sec (flagID flagSec : String) (env : Env) :
    credFromSetting ""
        ((pendingSettings flagID flagSec env).bind Settings.client_secret) =
      (if flagSec ≠ "" then flagSec
       else if env "CLIENT_SECRET" ≠ "" then env "CLIENT_SECRET"
       else if env "RESO_CLIENT_SECRET" ≠ "" then env "RESO_CLIENT_SECRET"
       else if env "MCP_RESO_CLIENT_SECRET" ≠ "" then env "MCP_RESO_CLIENT_SECRET"
       else "") := by
  by_cases hc : ((buildEnvSettings flagID flagSec env).client_id.isSome = true ∨
      (buildEnvSettings flagID flagSec env).client_secret.isSome = true)
  · rw [pendingSettings_pos flagID flagSec env hc]
    show credFromSetting "" ((buildEnvSettings flagID flagSec env).client_secret) = _
    unfold buildEnvSettings
    dsimp only
    exact credFromSetting_chain flagSec (env "CLIENT_SECRET") (env "RESO_CLIENT_SECRET")
      (env "MCP_RESO_CLIENT_SECRET")
  · rw [pendingSettings_neg flagID flagSec env hc]
    obtain ⟨_, hB⟩ := not_or.mp hc
    have h1 : (buildEnvSettings flagID flagSec env).client_secret = none :=
      Option.not_isSome_iff_eq_none.mp hB
    unfold buildEnvSettings at h1
    dsimp only at h1
    split_ifs at h1 with hf hg hd hm
    simp [credFromSetting, hf, hg, hd, hm]

theorem pend_resolution_id (flagID flagSec : String) (env : Env) :
    ((ServerInitialize DefaultConfig env (pendingSettings flagID flagSec env)).1).ClientID =
      (if flagID ≠ "" then flagID
       else if env "CLIENT_ID" ≠ "" then env "CLIENT_ID"
       else if env "RESO_CLIENT_ID" ≠ "" then env "RESO_CLIENT_ID"
       else if env "MCP_RESO_CLIENT_ID" ≠ "" then env "MCP_RESO_CLIENT_ID"
       else "") := by
  rw [← pendbind_chain_id flagID flagSec env]
  by_cases hc : ((buildEnvSettings flagID flagSec env).client_id.isSome = true ∨
      (buildEnvSettings flagID flagSec env).client_secret.isSome = true)
  · rw [pendingSettings_pos flagID flagSec env hc, ServerInitialize_some_ClientID]
    rfl
  · rw [pendingSettings_neg flagID flagSec env hc]
    show ((DefaultConfig.LoadFromEnv env)).ClientID = credFromSetting "" none
    rw [LoadFromEnv_ClientID]
    obtain ⟨hA, _⟩ := not_or.mp hc
    have h1 : (buildEnvSettings flagID flagSec env).client_id = none :=
      Option.not_isSome_iff_eq_none.mp hA
    unfold buildEnvSettings at h1
    dsimp only at h1
    split_ifs at h1 with hf hg hd hm
    simp [credFromSetting, hd, DefaultConfig]

theorem pend_resolution_sec (flagID flagSec : String) (env : Env) :
    ((ServerInitialize DefaultConfig env
        (pendingSettings flagID flagSec env)).1).ClientSecret =
      (if flagSec ≠ "" then flagSec
       else if env "CLIENT_SECRET" ≠ "" then env "CLIENT_SECRET"
       else if env "RESO_CLIENT_SECRET" ≠ "" then env "RESO_CLIENT_SECRET"
       else if env "MCP_RESO_CLIENT_SECRET" ≠ "" then env "MCP_RESO_CLIENT_SECRET"
       else "") := by
  rw [← pendbind_chain_sec flagID flagSec env]
  by_cases hc : ((buildEnvSettings flagID flagSec env).client_id.isSome = true ∨
      (buildEnvSettings flagID flagSec env).client_secret.isSome = true)
  · rw [pendingSettings_pos flagID flagSec env hc, ServerInitialize_some_ClientSecret]
    rfl
  · rw [pendingSettings_neg flagID flagSec env hc]
    show ((DefaultConfig.LoadFromEnv env)).ClientSecret = credFromSetting "" none
    rw [LoadFromEnv_ClientSecret]
    obtain ⟨_, hB⟩ := not_or.mp hc
    have h1 : (buildEnvSettings flagID flagSec env).client_secret = none :=
      Option.not_isSome_iff_eq_none.mp hB
    unfold buildEnvSettings at h1
    dsimp only at h1
    split_ifs at h1 with hf hg hd hm
    simp [credFromSetting, hd, DefaultConfig]

/-- C1, corrected: for every combination of sources whose defined keys are
non-empty strings, the configuration the components are constructed with
resolves each credential key by the precedence the code implements:
initialize-request values first, then the command-line flag, then the
generic environment variable, then the domain-prefixed one, then the
MCP-prefixed one; a key absent from a higher-precedence source never
erases a lower-precedence value. -/
theorem C1_precedence_amended (flagID flagSec : String) (env : Env) (p : InitParams)
    (hID : initParamsClientID p = none ∨
      ∃ v, initParamsClientID p = some (JValue.str v) ∧ v ≠ "")
    (hSec : initParamsClientSecret p = none ∨
      ∃ v, initParamsClientSecret p = some (JValue.str v) ∧ v ≠ "") :
    (initializeFlow flagID flagSec env p).ClientID =
      amendedMergedValue (env "MCP_RESO_CLIENT_ID") (env "RESO_CLIENT_ID")
        (env "CLIENT_ID") flagID (strOfJValue (initParamsClientID p)) ∧
    (initializeFlow flagID flagSec env p).ClientSecret =
      amendedMergedValue (env "MCP_RESO_CLIENT_SECRET") (env "RESO_CLIENT_SECRET")
        (env "CLIENT_SECRET") flagSec (strOfJValue (initParamsClientSecret p)) := by
  constructor
  · unfold initializeFlow
    cases p with
    | none =>
      have hnone : handleInitializeSettings
          (pendingSettings flagID flagSec env) none =
          pendingSettings flagID flagSec env := rfl
      rw [hnone, pend_resolution_id]
      simp [amendedMergedValue, strOfJValue, initParamsClientID]
    | some o =>
      obtain ⟨s0, hs0⟩ : ∃ s0, handleInitializeSettings
          (pendingSettings flagID flagSec env) (some o) = some s0 := by
        unfold handleInitializeSettings
        exact ⟨_, rfl⟩
      have h1 := handleInit_client_id (pendingSettings flagID flagSec env) (some o)
      rw [hs0] at h1
      have h2 : s0.client_id = (initParamsClientID (some o)).orElse
          (fun _ => (pendingSettings flagID flagSec env).bind Settings.client_id) := h1
      rw [hs0, ServerInitialize_some_ClientID]
      rcases hID with hn | ⟨v, hv, hvne⟩
      · rw [h2, hn]
        show credFromSetting ""
          ((pendingSettings flagID flagSec env).bind Settings.client_id) = _
        rw [pendbind_chain_id flagID flagSec env]
        simp [amendedMergedValue, strOfJValue]
      · rw [h2, hv]
        simp [credFromSetting, strOfJValue, amendedMergedValue, hvne, DefaultConfig]
  · unfold initializeFlow
    cases p with
    | none =>
      have hnone : handleInitializeSettings
          (pendingSettings flagID flagSec env) none =
          pendingSettings flagID flagSec env := rfl
      rw [hnone, pend_resolution_sec]
      simp [amendedMergedValue, strOfJValue, initParamsClientSecret]
    | some o =>
      obtain ⟨s0, hs0⟩ : ∃ s0, handleInitializeSettings
          (pendingSettings flagID flagSec env) (some o) = some s0 := by
        unfold handleInitializeSettings
        exact ⟨_, rfl⟩
      have h1 := handleInit_client_secret (pendingSettings flagID flagSec env) (some o)
      rw [hs0] at h1
      have h2 : s0.client_secret = (initParamsClientSecret (some o)).orElse
          (fun _ => (pendingSettings flagID flagSec env).bind Settings.client_secret) := h1
      rw [hs0, ServerInitialize_some_ClientSecret]
      rcases hSec with hn | ⟨v, hv, hvne⟩
      · rw [h2, hn]
        show credFromSetting ""
          ((pendingSettings flagID flagSec env).bind Settings.client_secret) = _
        rw [pendbind_chain_sec flagID flagSec env]
        simp [amendedMergedValue, strOfJValue]
      · rw [h2, hv]
        simp [credFromSetting, strOfJValue, amendedMergedValue, hvne, DefaultConfig]

theorem C1_precedence_counterexample :
    (initializeFlow "" ""
        (fun k => if k = "CLIENT_ID" then "generic-value"
          else if k = "RESO_CLIENT_ID" then "domain-value" else "")
        (some { capsSettings := none, paramsSettings := none,
                bareClientID := none, bareClientSecret := none })).ClientID =
      "generic-value" ∧
    claimedMergedValue "generic-value" "domain-value" "" none = "domain-value" ∧
    ("generic-value" : String) ≠ "domain-value" := by
  refine ⟨rfl, rfl, by decide⟩

theorem C1_precedence_amended_witness :
    (initializeFlow "" ""
        (fun k => if k = "CLIENT_ID" then "generic-value"
          else if k = "RESO_CLIENT_ID" then "domain-value" else "")
        (some { capsSettings := none, paramsSettings := none,
                bareClientID := none, bareClientSecret := none })).ClientID =
      "generic-value" ∧
    amendedMergedValue "" "domain-value" "generic-value" "" none = "generic-value" := by
  have h := C1_precedence_amended "" ""
    (fun k => if k = "CLIENT_ID" then "generic-value"
      else if k = "RESO_CLIENT_ID" then "domain-value" else "")
    (some { capsSettings := none, paramsSettings := none,
            bareClientID := none, bareClientSecret := none })
    (Or.inl rfl) (Or.inl rfl)
  exact ⟨h.1.trans (by decide), by decide⟩

end Reso
